import Mathlib

/-!
Verification of the `TrackingAllocator` module
(`src/utils/src/allocator/mod.rs`): a custom allocator that forwards
allocation and deallocation requests to the platform allocator while
maintaining two process-wide atomic `usize` counters of bytes allocated
and bytes deallocated.

Shallow embedding conventions:
* The two `AtomicUsize` statics `ALLOC` and `DEALLOC` are modelled as a
  `CounterState` record of two natural numbers, threaded explicitly.
* `usize` arithmetic is `Nat` arithmetic modulo `2 ^ 64`
  (`AtomicUsize::fetch_add` wraps on overflow).
* The `as isize` cast is the two's-complement reinterpretation
  `usizeAsIsize`; `isize` subtraction in `stats` wraps via `isizeWrap`.
* `System.alloc` is an external oracle: `allocate` takes the raw pointer
  the platform allocator returned for this call as an extra argument
  (`0` models a null return).
* `deallocate` additionally produces the ordered list of effects it
  performs, so that the placement of the counter update relative to the
  platform `dealloc` call is stated faithfully.
-/

namespace TrackingAllocator

/-- `2 ^ 64`, the modulus of `usize` arithmetic on a 64-bit target. -/
def USIZE : Nat := 2 ^ 64

/-- `isize::MAX` on a 64-bit target. -/
def ISIZE_MAX : Nat := 2 ^ 63 - 1

/-- Rust's `core::alloc::Layout`: a (size, alignment) pair.
(`Layout`'s own invariants, e.g. `size ≤ isize::MAX`, are taken as
hypotheses where a theorem needs them.) -/
structure Layout where
  size : Nat
  align : Nat
deriving Repr, DecidableEq

/-- The two process-wide counters `ALLOC` and `DEALLOC`
(`static ALLOC: AtomicUsize`, `static DEALLOC: AtomicUsize`).
Both are `usize` values, hence `< 2 ^ 64` in any reachable state;
the operations below preserve that bound. -/
structure CounterState where
  alloc : Nat
  dealloc : Nat
deriving Repr, DecidableEq

/-- `AtomicUsize::fetch_add` on a 64-bit target: wrapping addition. -/
def fetchAdd (c n : Nat) : Nat := (c + n) % USIZE

/-- `TrackingAllocator::reset`: `ALLOC.store(0); DEALLOC.store(0)`. -/
def reset (_s : CounterState) : CounterState := { alloc := 0, dealloc := 0 }

/-- `TrackingAllocator::record_alloc`:
`ALLOC.fetch_add(layout.size(), Ordering::SeqCst)`. -/
def record_alloc (s : CounterState) (layout : Layout) : CounterState :=
  { s with alloc := fetchAdd s.alloc layout.size }

/-- `TrackingAllocator::record_dealloc`:
`DEALLOC.fetch_add(layout.size(), Ordering::SeqCst)`. -/
def record_dealloc (s : CounterState) (layout : Layout) : CounterState :=
  { s with dealloc := fetchAdd s.dealloc layout.size }

/-- The `as isize` cast of a `usize` value: two's-complement
reinterpretation of the 64-bit pattern. -/
def usizeAsIsize (n : Nat) : Int :=
  if n % USIZE < 2 ^ 63 then (n % USIZE : Int) else (n % USIZE : Int) - (USIZE : Int)

/-- Wrapping of an unbounded integer into the `isize` range
`[-2^63, 2^63)`: the semantics of `isize` subtraction overflow. -/
def isizeWrap (x : Int) : Int := (x + 2 ^ 63) % ((USIZE : Nat) : Int) - 2 ^ 63

/-- The `Stats` struct: `{ alloc: usize, dealloc: usize, diff: isize }`. -/
structure Stats where
  alloc : Nat
  dealloc : Nat
  diff : Int
deriving Repr, DecidableEq

/-- `TrackingAllocator::stats`: loads both counters and computes
`(alloc as isize) - (dealloc as isize)`. -/
def stats (s : CounterState) : Stats :=
  { alloc := s.alloc
    dealloc := s.dealloc
    diff := isizeWrap (usizeAsIsize s.alloc - usizeAsIsize s.dealloc) }

/-- `stats` as a state-passing computation, making its effect on the
counters (none) part of the returned value. -/
def statsSt (s : CounterState) : Stats × CounterState := (stats s, s)

/-- `allocator_api2::alloc::AllocError`: the single, payload-free
allocation-failure error. -/
inductive AllocError where
  | allocError
deriving Repr, DecidableEq

/-- The `NonNull<[u8]>` block descriptor returned by `allocate`:
a non-null pointer plus a length in bytes. -/
structure Block where
  addr : Nat
  len : Nat
deriving Repr, DecidableEq

/-- `Allocator::allocate` for `TrackingAllocator`.  `sysPtr` is the raw
pointer `System.alloc(layout)` returned for this call (`0` = null).
On null: return `Err(AllocError)` and leave the counters alone.
Otherwise: build the fat pointer `slice::from_raw_parts_mut(ptr,
layout.size())`, call `record_alloc(layout)`, and return `Ok`. -/
def allocate (s : CounterState) (layout : Layout) (sysPtr : Nat) :
    Except AllocError Block × CounterState :=
  if sysPtr = 0 then
    (Except.error AllocError.allocError, s)
  else
    (Except.ok { addr := sysPtr, len := layout.size }, record_alloc s layout)

/-- The observable effects `deallocate` performs, in program order. -/
inductive Effect where
  | recordDealloc (layout : Layout)
  | systemDealloc (ptr : Nat) (layout : Layout)
deriving Repr, DecidableEq

/-- `Allocator::deallocate` for `TrackingAllocator`: first
`Self::record_dealloc(layout)`, then `System.dealloc(ptr, layout)`.
Returns the new counter state and the ordered effect list; the return
type is total (no `Except`): deallocation has no failure path. -/
def deallocate (s : CounterState) (ptr : Nat) (layout : Layout) :
    CounterState × List Effect :=
  (record_dealloc s layout,
   [Effect.recordDealloc layout, Effect.systemDealloc ptr layout])

/-- One allocate-then-deallocate round trip with a single layout and
the platform pointer obtained for it (per the zero-sum scenario:
every allocation is immediately released with the exact same layout). -/
def allocDeallocPair (s : CounterState) (p : Layout × Nat) : CounterState :=
  let r := allocate s p.fst p.snd
  (deallocate r.snd (match r.fst with
    | Except.ok b => b.addr
    | Except.error _ => p.snd) p.fst).fst

/-- A finite sequence of such round trips, run left to right. -/
def allocDeallocSeq (s : CounterState) (ps : List (Layout × Nat)) : CounterState :=
  ps.foldl allocDeallocPair s

/-- An interleaved history of successful `allocate` calls (one per
thread), applied to the counters in the order the atomic fetch-adds
were serialized. -/
def runAllocs (s : CounterState) (ops : List (Layout × Nat)) : CounterState :=
  ops.foldl (fun st p => (allocate st p.fst p.snd).snd) s

end TrackingAllocator

namespace TrackingAllocator

/-! ### Arithmetic helper lemmas -/

lemma USIZE_cast : ((USIZE : Nat) : Int) = 2 ^ 64 := by
  norm_num [USIZE]

lemma USIZE_eq : USIZE = 18446744073709551616 := by norm_num [USIZE]

lemma ISIZE_MAX_eq : ISIZE_MAX = 9223372036854775807 := by norm_num [ISIZE_MAX]

lemma emod_emod_usize (x : Int) :
    x % ((USIZE : Nat) : Int) % ((USIZE : Nat) : Int) = x % ((USIZE : Nat) : Int) :=
  Int.emod_emod_of_dvd x dvd_rfl

lemma isizeWrap_congr {x y : Int} (h : x % ((USIZE : Nat) : Int) = y % ((USIZE : Nat) : Int)) :
    isizeWrap x = isizeWrap y := by
  unfold isizeWrap
  rw [Int.add_emod, h, ← Int.add_emod]

lemma usizeAsIsize_emod (n : Nat) :
    usizeAsIsize n % ((USIZE : Nat) : Int) = (n : Int) % ((USIZE : Nat) : Int) := by
  unfold usizeAsIsize
  split
  · exact emod_emod_usize _
  · rw [Int.sub_emod, Int.emod_self, sub_zero, emod_emod_usize, emod_emod_usize]

lemma stats_diff (a d : Nat) :
    (stats { alloc := a, dealloc := d }).diff = isizeWrap ((a : Int) - (d : Int)) := by
  show isizeWrap (usizeAsIsize a - usizeAsIsize d) = _
  apply isizeWrap_congr
  rw [Int.sub_emod, usizeAsIsize_emod, usizeAsIsize_emod, ← Int.sub_emod]

lemma isizeWrap_of_bounds {x : Int} (h1 : -(2 ^ 63) ≤ x) (h2 : x < 2 ^ 63) :
    isizeWrap x = x := by
  unfold isizeWrap
  rw [USIZE_cast]
  have e63 : (2 : Int) ^ 63 = 9223372036854775808 := by norm_num
  have e64 : (2 : Int) ^ 64 = 18446744073709551616 := by norm_num
  rw [e63, e64] at *
  rw [Int.emod_eq_of_lt (by omega) (by omega)]
  omega

lemma usizeAsIsize_of_le {n : Nat} (h : n ≤ ISIZE_MAX) : usizeAsIsize n = n := by
  have hI := ISIZE_MAX_eq
  have h63 : (2 : Nat) ^ 63 = 9223372036854775808 := by norm_num
  unfold usizeAsIsize
  rw [USIZE_eq]
  rw [if_pos (by omega)]
  omega

lemma stats_diff_small {a d : Nat} (ha : a ≤ ISIZE_MAX) (hd : d ≤ ISIZE_MAX) :
    (stats { alloc := a, dealloc := d }).diff = (a : Int) - (d : Int) := by
  have hI : ISIZE_MAX = 9223372036854775807 := by norm_num [ISIZE_MAX]
  rw [stats_diff]
  apply isizeWrap_of_bounds
  · have e63 : (2 : Int) ^ 63 = 9223372036854775808 := by norm_num
    omega
  · have e63 : (2 : Int) ^ 63 = 9223372036854775808 := by norm_num
    omega

lemma fetchAdd_mod (c n : Nat) : fetchAdd c n % USIZE = (c + n) % USIZE :=
  Nat.mod_mod_of_dvd _ dvd_rfl


/-! ### Sequencing helper lemmas -/

/-- Total number of bytes described by a list of (layout, pointer) pairs. -/
def totalSize (ps : List (Layout × Nat)) : Nat := (ps.map fun p => p.fst.size).sum

lemma USIZE_pos : 0 < USIZE := by norm_num [USIZE]

lemma allocDeallocPair_eq (s : CounterState) (L : Layout) (p : Nat) (hp : p ≠ 0) :
    allocDeallocPair s (L, p) =
      { alloc := fetchAdd s.alloc L.size, dealloc := fetchAdd s.dealloc L.size } := by
  simp [allocDeallocPair, allocate, hp, deallocate, record_alloc, record_dealloc]

lemma totalSize_cons (L : Layout) (p : Nat) (ps : List (Layout × Nat)) :
    totalSize ((L, p) :: ps) = L.size + totalSize ps := by
  simp [totalSize]

lemma allocDeallocSeq_mod :
    ∀ (ps : List (Layout × Nat)) (s : CounterState), (∀ q ∈ ps, q.snd ≠ 0) →
      (allocDeallocSeq s ps).alloc % USIZE = (s.alloc + totalSize ps) % USIZE ∧
      (allocDeallocSeq s ps).dealloc % USIZE = (s.dealloc + totalSize ps) % USIZE := by
  intro ps
  induction ps with
  | nil =>
    intro s _
    simp [allocDeallocSeq, totalSize]
  | cons q ps ih =>
    intro s h
    obtain ⟨L, p⟩ := q
    have hp : p ≠ 0 := h (L, p) (List.mem_cons_self _ _)
    have hrest : ∀ q ∈ ps, q.snd ≠ 0 := fun q hq => h q (List.mem_cons_of_mem _ hq)
    have step : allocDeallocSeq s ((L, p) :: ps) =
        allocDeallocSeq (allocDeallocPair s (L, p)) ps := rfl
    rw [step, allocDeallocPair_eq s L p hp]
    have hih := ih { alloc := fetchAdd s.alloc L.size, dealloc := fetchAdd s.dealloc L.size } hrest
    refine ⟨?_, ?_⟩
    · rw [hih.1]
      show (fetchAdd s.alloc L.size + totalSize ps) % USIZE = _
      rw [totalSize_cons, fetchAdd, Nat.mod_add_mod, Nat.add_assoc]
    · rw [hih.2]
      show (fetchAdd s.dealloc L.size + totalSize ps) % USIZE = _
      rw [totalSize_cons, fetchAdd, Nat.mod_add_mod, Nat.add_assoc]

lemma runAllocs_eq :
    ∀ (ops : List (Layout × Nat)) (s : CounterState), (∀ q ∈ ops, q.snd ≠ 0) →
      s.alloc < USIZE →
      runAllocs s ops = { alloc := (s.alloc + totalSize ops) % USIZE, dealloc := s.dealloc } := by
  intro ops
  induction ops with
  | nil =>
    intro s _ hs
    simp [runAllocs, totalSize]
    cases s with
    | mk a d => simp [Nat.mod_eq_of_lt hs]
  | cons q ops ih =>
    intro s h hs
    obtain ⟨L, p⟩ := q
    have hp : p ≠ 0 := h (L, p) (List.mem_cons_self _ _)
    have hrest : ∀ q ∈ ops, q.snd ≠ 0 := fun q hq => h q (List.mem_cons_of_mem _ hq)
    have step : runAllocs s ((L, p) :: ops) =
        runAllocs { s with alloc := fetchAdd s.alloc L.size } ops := by
      simp [runAllocs, allocate, hp, record_alloc]
    rw [step, ih _ hrest (Nat.mod_lt _ USIZE_pos)]
    show ({ alloc := (fetchAdd s.alloc L.size + totalSize ops) % USIZE,
            dealloc := s.dealloc } : CounterState) = _
    rw [totalSize_cons, fetchAdd, Nat.mod_add_mod, Nat.add_assoc]

lemma stats_diff_state (t : CounterState) :
    (stats t).diff = isizeWrap ((t.alloc : Int) - (t.dealloc : Int)) :=
  stats_diff t.alloc t.dealloc

/-! ### Claim theorems -/

/-- C1: if `allocate(L)` fails (the platform allocator returned null),
`allocate` returns `AllocError` and the alloc counter is unchanged: for
every layout and every counter state, `stats().alloc` after the failed
call equals its value before the call. -/
theorem allocate_fail_no_phantom_count (s : CounterState) (L : Layout) (sysPtr : Nat)
    (h : sysPtr = 0) :
    allocate s L sysPtr = (Except.error AllocError.allocError, s) ∧
    (stats (allocate s L sysPtr).snd).alloc = (stats s).alloc := by
  subst h
  simp [allocate]

theorem allocate_fail_no_phantom_count_witness :
    allocate { alloc := 7, dealloc := 3 } { size := 16, align := 8 } 0 =
      (Except.error AllocError.allocError, { alloc := 7, dealloc := 3 }) ∧
    (stats (allocate { alloc := 7, dealloc := 3 } { size := 16, align := 8 } 0).snd).alloc =
      (stats { alloc := 7, dealloc := 3 }).alloc :=
  allocate_fail_no_phantom_count { alloc := 7, dealloc := 3 } { size := 16, align := 8 } 0 rfl

/-- C2: a successful `allocate(L)` (platform pointer non-null) increments
the alloc counter by exactly `L.size` and returns a non-null block
descriptor whose length is exactly `L.size` bytes.  (The exact, rather
than modular, increment needs the counter not to wrap, which holds in
any run where fewer than `2^64` bytes are ever recorded.) -/
theorem allocate_success_records_size (s : CounterState) (L : Layout) (sysPtr : Nat)
    (hp : sysPtr ≠ 0) (hov : s.alloc + L.size < USIZE) :
    (allocate s L sysPtr).fst = Except.ok { addr := sysPtr, len := L.size } ∧
    ({ addr := sysPtr, len := L.size } : Block).addr ≠ 0 ∧
    (stats (allocate s L sysPtr).snd).alloc = (stats s).alloc + L.size := by
  refine ⟨by simp [allocate, hp], hp, ?_⟩
  simp [allocate, hp, stats, record_alloc, fetchAdd, Nat.mod_eq_of_lt hov]

theorem allocate_success_records_size_witness :
    (1 : Nat) ≠ 0 ∧
    ({ alloc := 5, dealloc := 2 } : CounterState).alloc +
      ({ size := 64, align := 8 } : Layout).size < USIZE ∧
    ((allocate { alloc := 5, dealloc := 2 } { size := 64, align := 8 } 1).fst =
        Except.ok { addr := 1, len := 64 } ∧
      ({ addr := 1, len := 64 } : Block).addr ≠ 0 ∧
      (stats (allocate { alloc := 5, dealloc := 2 } { size := 64, align := 8 } 1).snd).alloc =
        (stats { alloc := 5, dealloc := 2 }).alloc + 64) :=
  ⟨by decide, by decide,
    allocate_success_records_size { alloc := 5, dealloc := 2 } { size := 64, align := 8 } 1
      (by decide) (by decide)⟩

/-- C3: `deallocate(p, L)` unconditionally (for every pointer and every
state) increments the dealloc counter by exactly `L.size`, performs the
counter update strictly before handing the memory back to the platform
allocator (its effect list is `[record_dealloc, System.dealloc]` in that
order), and has no failure path (it is a total function into
`CounterState × List Effect`, not an `Except`). -/
theorem deallocate_unconditional_record_before_free (s : CounterState) (p : Nat) (L : Layout)
    (hov : s.dealloc + L.size < USIZE) :
    (stats (deallocate s p L).fst).dealloc = (stats s).dealloc + L.size ∧
    (deallocate s p L).snd = [Effect.recordDealloc L, Effect.systemDealloc p L] := by
  refine ⟨?_, rfl⟩
  simp [deallocate, record_dealloc, stats, fetchAdd, Nat.mod_eq_of_lt hov]

theorem deallocate_unconditional_record_before_free_witness :
    ({ alloc := 64, dealloc := 0 } : CounterState).dealloc +
      ({ size := 64, align := 8 } : Layout).size < USIZE ∧
    ((stats (deallocate { alloc := 64, dealloc := 0 } 1 { size := 64, align := 8 }).fst).dealloc =
        (stats { alloc := 64, dealloc := 0 }).dealloc + 64 ∧
      (deallocate { alloc := 64, dealloc := 0 } 1 { size := 64, align := 8 }).snd =
        [Effect.recordDealloc { size := 64, align := 8 },
         Effect.systemDealloc 1 { size := 64, align := 8 }]) :=
  ⟨by decide,
    deallocate_unconditional_record_before_free { alloc := 64, dealloc := 0 } 1
      { size := 64, align := 8 } (by decide)⟩

/-- C6: `reset()` sets both counters to zero (returning nothing beyond
the new state), and it is idempotent: after one or two consecutive
`reset()` calls, from any starting state, `stats()` is
`{alloc := 0, dealloc := 0, diff := 0}`. -/
theorem reset_zeroes_and_idempotent (s : CounterState) :
    reset s = { alloc := 0, dealloc := 0 } ∧
    stats (reset s) = { alloc := 0, dealloc := 0, diff := 0 } ∧
    stats (reset (reset s)) = { alloc := 0, dealloc := 0, diff := 0 } := by
  refine ⟨rfl, ?_, ?_⟩ <;>
  · show stats { alloc := 0, dealloc := 0 } = { alloc := 0, dealloc := 0, diff := 0 }
    decide

/-- C4: zero-sum property.  For any finite sequence of allocate calls,
each immediately followed by a deallocate with the exact same layout
(every platform pointer non-null, so every allocate succeeds), and
starting from any counter state, `stats().diff` after the whole
sequence equals `stats().diff` before it; in particular, starting from
reset counters it is `0`. -/
theorem alloc_dealloc_zero_sum (s : CounterState) (ps : List (Layout × Nat))
    (h : ∀ q ∈ ps, q.snd ≠ 0) :
    (stats (allocDeallocSeq s ps)).diff = (stats s).diff ∧
    (stats (allocDeallocSeq (reset s) ps)).diff = 0 := by
  have key : ∀ t : CounterState, (∀ q ∈ ps, q.snd ≠ 0) →
      (stats (allocDeallocSeq t ps)).diff = (stats t).diff := by
    intro t ht
    obtain ⟨ha, hd⟩ := allocDeallocSeq_mod ps t ht
    rw [stats_diff_state (allocDeallocSeq t ps), stats_diff_state t]
    apply isizeWrap_congr
    have ha' := congrArg (fun k : Nat => (k : Int)) ha
    have hd' := congrArg (fun k : Nat => (k : Int)) hd
    push_cast at ha' hd'
    rw [Int.sub_emod, ha', hd', ← Int.sub_emod]
    congr 1
    ring
  refine ⟨key s h, ?_⟩
  rw [key (reset s) h]
  show (stats { alloc := 0, dealloc := 0 }).diff = 0
  decide

theorem alloc_dealloc_zero_sum_witness :
    (∀ q ∈ ([({ size := 8, align := 1 }, 1), ({ size := 16, align := 2 }, 2)] :
        List (Layout × Nat)), q.snd ≠ 0) ∧
    ((stats (allocDeallocSeq { alloc := 5, dealloc := 2 }
        [({ size := 8, align := 1 }, 1), ({ size := 16, align := 2 }, 2)])).diff =
      (stats { alloc := 5, dealloc := 2 }).diff ∧
    (stats (allocDeallocSeq (reset { alloc := 5, dealloc := 2 })
        [({ size := 8, align := 1 }, 1), ({ size := 16, align := 2 }, 2)])).diff = 0) :=
  ⟨by decide,
    alloc_dealloc_zero_sum { alloc := 5, dealloc := 2 }
      [({ size := 8, align := 1 }, 1), ({ size := 16, align := 2 }, 2)] (by decide)⟩

/-- C5: additivity.  For all layouts `L1`, `L2` (with the Rust `Layout`
size invariant `size ≤ isize::MAX`), after `reset()`, then a successful
`allocate(L1)`, then a successful `allocate(L2)`,
`stats().alloc = L1.size + L2.size`. -/
theorem allocate_additivity (s : CounterState) (L1 L2 : Layout) (p1 p2 : Nat)
    (hp1 : p1 ≠ 0) (hp2 : p2 ≠ 0)
    (h1 : L1.size ≤ ISIZE_MAX) (h2 : L2.size ≤ ISIZE_MAX) :
    (stats (allocate (allocate (reset s) L1 p1).snd L2 p2).snd).alloc =
      L1.size + L2.size := by
  rw [ISIZE_MAX_eq] at h1 h2
  simp only [reset, allocate, if_neg hp1, if_neg hp2, record_alloc, stats, fetchAdd]
  rw [USIZE_eq]
  omega

theorem allocate_additivity_witness :
    (1 : Nat) ≠ 0 ∧ (2 : Nat) ≠ 0 ∧
    ({ size := 64, align := 8 } : Layout).size ≤ ISIZE_MAX ∧
    ({ size := 36, align := 4 } : Layout).size ≤ ISIZE_MAX ∧
    (stats (allocate (allocate (reset { alloc := 9, dealloc := 4 })
        { size := 64, align := 8 } 1).snd { size := 36, align := 4 } 2).snd).alloc =
      ({ size := 64, align := 8 } : Layout).size + ({ size := 36, align := 4 } : Layout).size :=
  ⟨by decide, by decide, by decide, by decide,
    allocate_additivity { alloc := 9, dealloc := 4 } { size := 64, align := 8 }
      { size := 36, align := 4 } 1 2 (by decide) (by decide) (by decide) (by decide)⟩

/-- C7: `stats()` is a pure read.  As a state-passing computation it
returns the pair of a snapshot and the unchanged counter state; the
snapshot's `alloc` and `dealloc` fields are the current counter values
and, whenever both counters are within `isize` range, its `diff` field
is the exact signed difference `alloc - dealloc`. -/
theorem stats_pure_snapshot (s : CounterState)
    (ha : s.alloc ≤ ISIZE_MAX) (hd : s.dealloc ≤ ISIZE_MAX) :
    statsSt s = ({ alloc := s.alloc, dealloc := s.dealloc,
                   diff := (s.alloc : Int) - (s.dealloc : Int) }, s) := by
  have h1 := usizeAsIsize_of_le ha
  have h2 := usizeAsIsize_of_le hd
  rw [ISIZE_MAX_eq] at ha hd
  have e63 : (2 : Int) ^ 63 = 9223372036854775808 := by norm_num
  unfold statsSt stats
  rw [h1, h2, isizeWrap_of_bounds (by omega) (by omega)]

theorem stats_pure_snapshot_witness :
    ({ alloc := 12, dealloc := 5 } : CounterState).alloc ≤ ISIZE_MAX ∧
    ({ alloc := 12, dealloc := 5 } : CounterState).dealloc ≤ ISIZE_MAX ∧
    statsSt { alloc := 12, dealloc := 5 } =
      ({ alloc := 12, dealloc := 5, diff := (12 : Int) - (5 : Int) },
       { alloc := 12, dealloc := 5 }) :=
  ⟨by decide, by decide,
    stats_pure_snapshot { alloc := 12, dealloc := 5 } (by decide) (by decide)⟩

deriving instance DecidableEq for Except

/-- The concrete scenario: reset, allocate 64 bytes (platform pointer 1),
allocate 36 bytes (platform pointer 2), then release both blocks. -/
def scenarioR1 : Except AllocError Block × CounterState :=
  allocate (reset { alloc := 0, dealloc := 0 }) { size := 64, align := 1 } 1

def scenarioR2 : Except AllocError Block × CounterState :=
  allocate scenarioR1.snd { size := 36, align := 1 } 2

def scenarioS3 : CounterState := (deallocate scenarioR2.snd 1 { size := 64, align := 1 }).fst

def scenarioS4 : CounterState := (deallocate scenarioS3 2 { size := 36, align := 1 }).fst

/-- C8: scenario trace.  From reset counters: a successful
`allocate(size 64)` yields stats `(64, 0, 64)`; a successful
`allocate(size 36)` yields `(100, 0, 100)`; `deallocate` of the first
block with the size-64 layout yields `(100, 64, 36)`; `deallocate` of
the second block with the size-36 layout yields `(100, 100, 0)`. -/
theorem scenario_trace :
    scenarioR1.fst = Except.ok { addr := 1, len := 64 } ∧
    stats scenarioR1.snd = { alloc := 64, dealloc := 0, diff := 64 } ∧
    scenarioR2.fst = Except.ok { addr := 2, len := 36 } ∧
    stats scenarioR2.snd = { alloc := 100, dealloc := 0, diff := 100 } ∧
    stats scenarioS3 = { alloc := 100, dealloc := 64, diff := 36 } ∧
    stats scenarioS4 = { alloc := 100, dealloc := 100, diff := 0 } := by
  decide

/-- C9: concurrent addition correctness.  Because each counter update is
a single atomic fetch-and-add with `SeqCst` ordering, a run of N
threads each performing one successful `allocate(L)` is equivalent to
some serialization of the N atomic increments; for every such
interleaving (any operation list whose layouts are a permutation of N
copies of L, with all platform pointers non-null), starting from reset
counters, `stats().alloc = N * L.size` (no wrap occurs while the total
stays below `2^64`). -/
theorem concurrent_allocs_sum (N : Nat) (L : Layout) (ops : List (Layout × Nat))
    (s : CounterState)
    (hperm : List.Perm (ops.map Prod.fst) (List.replicate N L))
    (hnn : ∀ q ∈ ops, q.snd ≠ 0)
    (hov : N * L.size < USIZE) :
    (stats (runAllocs (reset s) ops)).alloc = N * L.size := by
  rw [runAllocs_eq ops (reset s) hnn USIZE_pos]
  show ((reset s).alloc + totalSize ops) % USIZE = N * L.size
  have hT : totalSize ops = N * L.size := by
    unfold totalSize
    have h1 : (ops.map fun p => p.fst.size) = (ops.map Prod.fst).map (fun l => l.size) :=
      (List.map_map _ _ _).symm
    rw [h1, (hperm.map (fun l : Layout => l.size)).sum_eq, List.map_replicate,
      List.sum_replicate, smul_eq_mul]
  show (0 + totalSize ops) % USIZE = N * L.size
  rw [Nat.zero_add, hT, Nat.mod_eq_of_lt hov]

theorem concurrent_allocs_sum_witness :
    List.Perm (([({ size := 8, align := 1 }, 1), ({ size := 8, align := 1 }, 2),
        ({ size := 8, align := 1 }, 3)] : List (Layout × Nat)).map Prod.fst)
      (List.replicate 3 { size := 8, align := 1 }) ∧
    (∀ q ∈ ([({ size := 8, align := 1 }, 1), ({ size := 8, align := 1 }, 2),
        ({ size := 8, align := 1 }, 3)] : List (Layout × Nat)), q.snd ≠ 0) ∧
    3 * ({ size := 8, align := 1 } : Layout).size < USIZE ∧
    (stats (runAllocs (reset { alloc := 2, dealloc := 9 })
        [({ size := 8, align := 1 }, 1), ({ size := 8, align := 1 }, 2),
         ({ size := 8, align := 1 }, 3)])).alloc = 3 * ({ size := 8, align := 1 } : Layout).size :=
  ⟨by decide, by decide, by decide,
    concurrent_allocs_sum 3 { size := 8, align := 1 }
      [({ size := 8, align := 1 }, 1), ({ size := 8, align := 1 }, 2),
       ({ size := 8, align := 1 }, 3)] { alloc := 2, dealloc := 9 }
      (by decide) (by decide) (by decide)⟩

/-- C10: `stats().diff` is computed by casting each `usize` counter to
`isize` and subtracting.  For every pair of counter values both at most
`isize::MAX` the result is the exact mathematical difference
`alloc - dealloc`; but when a counter exceeds `isize::MAX` the cast
wraps modulo `2^64` and `diff` can differ from the mathematical
difference, witnessed at `alloc = 2^63`, `dealloc = 0`, where the code
yields `-2^63` instead of `2^63`. -/
theorem diff_cast_wrap (a d : Nat) (ha : a ≤ ISIZE_MAX) (hd : d ≤ ISIZE_MAX) :
    (stats { alloc := a, dealloc := d }).diff = (a : Int) - (d : Int) ∧
    (stats { alloc := 2 ^ 63, dealloc := 0 }).diff = -(2 ^ 63 : Int) ∧
    (stats { alloc := 2 ^ 63, dealloc := 0 }).diff ≠
      ((2 ^ 63 : Nat) : Int) - ((0 : Nat) : Int) := by
  refine ⟨stats_diff_small ha hd, by decide, by decide⟩

theorem diff_cast_wrap_witness :
    (100 : Nat) ≤ ISIZE_MAX ∧ (36 : Nat) ≤ ISIZE_MAX ∧
    ((stats { alloc := 100, dealloc := 36 }).diff = (100 : Int) - (36 : Int) ∧
      (stats { alloc := 2 ^ 63, dealloc := 0 }).diff = -(2 ^ 63 : Int) ∧
      (stats { alloc := 2 ^ 63, dealloc := 0 }).diff ≠
        ((2 ^ 63 : Nat) : Int) - ((0 : Nat) : Int)) :=
  ⟨by decide, by decide, diff_cast_wrap 100 36 (by decide) (by decide)⟩
